import Mathlib

/-!
Shallow embedding of the DeepDive research-agent orchestration core
(`src/services/gemini.ts`, the App component, `types.ts`, and the
PlanReview component).

Conventions used throughout:
* Asynchronous external calls are modelled by oracle parameters: the
  planner outcome is an `Except String ResearchPlan`, the raw generate
  call behind a research step is an `Except String GenResponse` supplied
  per step, and the report stream is the list of chunk strings it
  delivers (in arrival order) before resolving.
* A promise that may reject is an `Except String α`; `await` of a call
  that provably never rejects is modelled by the resolved value.
* `Date.now()` is modelled by a `now : Nat` parameter standing for the
  wall-clock reading during one handler invocation (all reads within a
  single handler collapse to that value, as they do within one
  millisecond); `(Date.now() + 1).toString()` becomes
  `toString (now + 1)`.
* JavaScript string truthiness (`""` is falsy) is made explicit at each
  use site.
* Every `setArtifact` call appends the newly produced `ArtifactState` to
  an observation trace, so temporal claims about the phases the artifact
  passes through are claims about that trace.
-/

namespace DeepDive

/-! ## Data model (`types.ts`) -/

inductive Phase
  | idle | planning | reviewing | researching | reporting | completed
deriving DecidableEq

inductive Role
  | user | model | system
deriving DecidableEq

/-- The status union of `ResearchStep.status` in `types.ts`. -/
inductive StepStatus
  | pending | researching | completed | failed
deriving DecidableEq

structure Source where
  title : String
  uri : String
deriving DecidableEq

structure ResearchStep where
  id : String
  query : String
  status : StepStatus
  finding : Option String := none
  sources : Option (List Source) := none
deriving DecidableEq

structure ResearchPlan where
  topic : String
  steps : List ResearchStep
deriving DecidableEq

structure ArtifactState where
  title : String
  content : String
  phase : Phase
  sources : List Source
  currentStepId : Option String := none
deriving DecidableEq

structure Message where
  id : String
  role : Role
  content : String
  timestamp : Nat
  isThinking : Bool := false
  plan : Option ResearchPlan := none
deriving DecidableEq

/-- The React state of the App component: `input`, `messages`,
`artifact`, `currentPlan`. -/
structure AppState where
  input : String
  messages : List Message
  artifact : ArtifactState
  currentPlan : Option ResearchPlan := none
deriving DecidableEq

/-! ## JavaScript string trimming

`String.prototype.trim` removes leading and trailing whitespace; we
model the whitespace class by the common ASCII whitespace characters. -/

def jsIsWs (c : Char) : Bool :=
  c = ' ' ∨ c = '\t' ∨ c = '\n' ∨ c = '\r'

def jsTrim (s : String) : String :=
  String.mk (((s.data.dropWhile jsIsWs).reverse.dropWhile jsIsWs).reverse)

/-! ## Researcher (`executeResearchStep`, gemini.ts lines 53-87)

The raw `ai.models.generateContent` response is modelled by
`GenResponse`; the optional-chaining path
`response.candidates?.[0]?.groundingMetadata?.groundingChunks` is
translated field by field. -/

structure WebSource where
  uri : Option String := none
  title : Option String := none
deriving DecidableEq

structure GroundingChunk where
  web : Option WebSource := none
deriving DecidableEq

structure GroundingMetadata where
  groundingChunks : Option (List GroundingChunk) := none
deriving DecidableEq

structure Candidate where
  groundingMetadata : Option GroundingMetadata := none
deriving DecidableEq

structure GenResponse where
  text : Option String := none
  candidates : Option (List Candidate) := none
deriving DecidableEq

/-- The resolution value of `executeResearchStep`. -/
structure StepResult where
  finding : String
  sources : List Source
deriving DecidableEq

/-- `if (chunk.web && chunk.web.uri && chunk.web.title) push({title, uri})`:
the two string truthiness checks reject absent and empty strings. -/
def chunkSource (c : GroundingChunk) : Option Source :=
  match c.web with
  | some w =>
    match w.uri, w.title with
    | some u, some t => if u ≠ "" ∧ t ≠ "" then some ⟨t, u⟩ else none
    | _, _ => none
  | none => none

/-- `response.candidates?.[0]?.groundingMetadata?.groundingChunks`. -/
def getGroundingChunks (r : GenResponse) : Option (List GroundingChunk) :=
  match r.candidates with
  | some (c :: _) =>
    match c.groundingMetadata with
    | some gm => gm.groundingChunks
    | none => none
  | _ => none

/-- `response.text || "No information found."` (empty string is falsy). -/
def findingOfResponse (r : GenResponse) : String :=
  match r.text with
  | some t => if t = "" then "No information found." else t
  | none => "No information found."

/-- `sources` accumulated by the `forEach` push loop over the grounding
chunks (`if (groundingChunks)`: an absent list contributes nothing, a
present empty list is truthy and the loop is a no-op). -/
def sourcesOfResponse (r : GenResponse) : List Source :=
  match getGroundingChunks r with
  | some chunks => chunks.filterMap chunkSource
  | none => []

/-- `executeResearchStep` with its rejection channel explicit: the
`try`/`catch` resolves in both branches, so every branch is `.ok`. The
`step` argument is only used to build the prompt (external), so only the
api outcome determines the result. -/
def executeResearchStep (step : ResearchStep)
    (api : Except String GenResponse) : Except String StepResult :=
  match api with
  | .ok response => .ok ⟨findingOfResponse response, sourcesOfResponse response⟩
  | .error _ => .ok ⟨"Failed to fetch info for this step.", []⟩

/-- The value `await executeResearchStep(step)` yields (the promise
never rejects, see the theorem for C4). -/
def executeResearchStepRun (step : ResearchStep)
    (api : Except String GenResponse) : StepResult :=
  match api with
  | .ok response => ⟨findingOfResponse response, sourcesOfResponse response⟩
  | .error _ => ⟨"Failed to fetch info for this step.", []⟩

theorem executeResearchStep_eq_run (step : ResearchStep)
    (api : Except String GenResponse) :
    executeResearchStep step api = .ok (executeResearchStepRun step api) := by
  cases api <;> rfl

/-! ## Reporter (`generateFinalReportStream`, gemini.ts lines 91-137)

The stream is the list of chunk texts it delivers; `onChunk` here is the
App's `setArtifact(prev => { ...prev, content: prev.content + chunk })`,
so we fold the chunks into the artifact directly, recording each write.
`if (chunk.text)` skips chunks whose text is absent/empty (falsy); an
absent text is modelled by the empty string. `topic` and
`completedSteps` only shape the prompt sent to the external model. -/

def generateFinalReportStream (topic : String)
    (completedSteps : List ResearchStep) :
    ArtifactState → List String → ArtifactState × List ArtifactState
  | art, [] => (art, [])
  | art, c :: rest =>
    if c = "" then
      generateFinalReportStream topic completedSteps art rest
    else
      let a1 := { art with content := art.content ++ c }
      let out := generateFinalReportStream topic completedSteps a1 rest
      (out.1, a1 :: out.2)

/-! ## Orchestrator (App component) -/

/-- Output of one submission handler call: the new React state, the
trace of artifact states written (one per `setArtifact`), how many times
the planner service was invoked, and the steps on which the researcher
was invoked. -/
structure InitOut where
  state : AppState
  trace : List ArtifactState
  plannerCalls : Nat
  researchCalls : List ResearchStep
deriving DecidableEq

/-- `handleInitialRequest` (App, lines 182-240). The planner promise
outcome is the `planner` oracle; `handleInitialRequest` itself contains
no researcher call, hence `researchCalls := []` in every branch. -/
def handleInitialRequest (s : AppState) (now : Nat)
    (planner : Except String ResearchPlan) : InitOut :=
  if jsTrim s.input = "" then ⟨s, [], 0, []⟩
  else
    let topic := s.input
    let userMsg : Message := ⟨toString now, .user, topic, now, false, none⟩
    let a1 : ArtifactState := ⟨topic, "", .planning, [], none⟩
    let thinkingId := toString (now + 1)
    let thinkingMsg : Message :=
      ⟨thinkingId, .model,
        "Coordinator: Activating Planner agent for \"" ++ topic ++ "\"...",
        now, true, none⟩
    let msgs2 := s.messages ++ [userMsg] ++ [thinkingMsg]
    match planner with
    | .ok plan =>
      let msgs3 := msgs2.map fun m =>
        if m.id = thinkingId then
          { m with isThinking := false,
                   content := "Planner: I\x27ve outlined a strategy. Please review it below.",
                   plan := some plan }
        else m
      let a2 := { a1 with phase := .reviewing }
      ⟨⟨"", msgs3, a2, some plan⟩, [a1, a2], 1, []⟩
    | .error _ =>
      let failMsg : Message :=
        ⟨toString now, .model,
          "Planner failed to generate a plan. Please try again.", now, false, none⟩
      let a2 := { a1 with phase := .idle }
      ⟨⟨"", msgs2 ++ [failMsg], a2, s.currentPlan⟩, [a1, a2], 1, []⟩

/-- A keyboard event as far as `handleKeyDown` inspects it. -/
structure KeyEvent where
  key : String
  shiftKey : Bool
deriving DecidableEq

/-- `handleKeyDown` (App, lines 308-315): on plain Enter, submit only
when the phase is `idle` or `completed`; otherwise nothing happens. -/
def handleKeyDown (s : AppState) (e : KeyEvent) (now : Nat)
    (planner : Except String ResearchPlan) : InitOut :=
  if e.key = "Enter" ∧ ¬e.shiftKey then
    if s.artifact.phase = .idle ∨ s.artifact.phase = .completed then
      handleInitialRequest s now planner
    else ⟨s, [], 0, []⟩
  else ⟨s, [], 0, []⟩

/-- Output of the sequential step-execution loop in
`handlePlanApproval`: the artifact after the loop, the artifact writes,
the `completedSteps` accumulator, and the steps on which the researcher
was invoked (in call order). -/
structure LoopOut where
  art : ArtifactState
  trace : List ArtifactState
  completed : List ResearchStep
  calls : List ResearchStep
deriving DecidableEq

/-- The `for (const step of approvedPlan.steps)` loop (App, lines
259-282). Per step: mark it current, await the researcher, push
`{ ...step, status: 'completed', ...result }`, then append the result
sources whose `uri` is not already present (the `Set`-based filter). The
pacing delay changes no state. -/
def stepLoop (api : ResearchStep → Except String GenResponse) :
    ArtifactState → List ResearchStep → LoopOut
  | art, [] => ⟨art, [], [], []⟩
  | art, step :: rest =>
    let a1 := { art with currentStepId := some step.id }
    let result := executeResearchStepRun step (api step)
    let completedStep : ResearchStep :=
      { step with status := .completed,
                  finding := some result.finding,
                  sources := some result.sources }
    let existingUrls := a1.sources.map Source.uri
    let uniqueNew := result.sources.filter fun src =>
      decide (src.uri ∉ existingUrls)
    let a2 := { a1 with sources := a1.sources ++ uniqueNew }
    let out := stepLoop api a2 rest
    ⟨out.art, a1 :: a2 :: out.trace, completedStep :: out.completed,
      step :: out.calls⟩

/-- Output of `handlePlanApproval`: the new React state, the artifact
writes, what was handed to the report streamer, and the researcher call
list. -/
structure ApprovalOut where
  state : AppState
  trace : List ArtifactState
  reportTopic : String
  reportSteps : List ResearchStep
  researchCalls : List ResearchStep
deriving DecidableEq

/-- `handlePlanApproval` (App, lines 243-306): record the approved plan,
append the confirmation message, enter `researching`, run the step loop,
enter `reporting` (clearing `currentStepId`), append the
research-complete message, stream the report into `content`, and enter
`completed`. -/
def handlePlanApproval (s : AppState) (approvedPlan : ResearchPlan)
    (api : ResearchStep → Except String GenResponse)
    (chunks : List String) (now : Nat) : ApprovalOut :=
  let msgs1 := s.messages ++
    [⟨toString now, .model,
      "Plan approved. Deploying Researcher agent now. Check the sidebar for live progress.",
      now, false, none⟩]
  let a1 := { s.artifact with phase := .researching }
  let loopOut := stepLoop api a1 approvedPlan.steps
  let a3 := { loopOut.art with phase := .reporting, currentStepId := none }
  let msgs2 := msgs1 ++
    [⟨toString now, .model,
      "Research complete. Reporter agent is compiling the final artifact...",
      now, false, none⟩]
  let streamed := generateFinalReportStream approvedPlan.topic loopOut.completed a3 chunks
  let a5 := { streamed.1 with phase := .completed }
  ⟨⟨s.input, msgs2, a5, some approvedPlan⟩,
    a1 :: loopOut.trace ++ a3 :: streamed.2 ++ [a5],
    approvedPlan.topic, loopOut.completed, loopOut.calls⟩

/-! ## PlanReview component (`src/unnamed/part_001`) -/

/-- The PlanReview working state: the editable `steps` array and the
`newStepText` input. -/
structure PlanEditorState where
  steps : List ResearchStep
  newStepText : String
deriving DecidableEq

/-- `handleAdd`: no-op on blank text, else append a step with id
`new-<Date.now()>` and clear the text box. -/
def handleAdd (st : PlanEditorState) (now : Nat) : PlanEditorState :=
  if jsTrim st.newStepText = "" then st
  else
    ⟨st.steps ++ [⟨"new-" ++ toString now, st.newStepText, .pending, none, none⟩], ""⟩

/-- `handleRemove`: keep the steps whose id differs. -/
def handleRemove (st : PlanEditorState) (id : String) : PlanEditorState :=
  ⟨st.steps.filter fun s => decide (s.id ≠ id), st.newStepText⟩

/-- `handleEdit`: replace the query of the matching step in place. -/
def handleEdit (st : PlanEditorState) (id : String) (text : String) :
    PlanEditorState :=
  ⟨st.steps.map fun s => if s.id = id then { s with query := text } else s,
    st.newStepText⟩

/-! ## Generic observation helpers -/

/-- Ordered concatenation of a chunk sequence. -/
def concatChunks : List String → String
  | [] => ""
  | c :: rest => c ++ concatChunks rest

/-- Collapse consecutive equal phases: the sequence of distinct phase
values an observer of the artifact sees over time. -/
def dedupConsec : List Phase → List Phase
  | [] => []
  | [a] => [a]
  | a :: b :: rest =>
    if a = b then dedupConsec (b :: rest) else a :: dedupConsec (b :: rest)

/-! ## Helper lemmas about the step loop -/

theorem stepLoop_art_fields (api : ResearchStep → Except String GenResponse)
    (steps : List ResearchStep) : ∀ art : ArtifactState,
    (stepLoop api art steps).art.phase = art.phase ∧
    (stepLoop api art steps).art.content = art.content ∧
    (stepLoop api art steps).art.title = art.title := by
  induction steps with
  | nil => intro art; exact ⟨rfl, rfl, rfl⟩
  | cons step rest ih =>
    intro art
    simpa [stepLoop] using ih _

theorem stepLoop_trace_phase (api : ResearchStep → Except String GenResponse)
    (steps : List ResearchStep) : ∀ art : ArtifactState,
    ∀ a ∈ (stepLoop api art steps).trace, a.phase = art.phase := by
  induction steps with
  | nil => intro art a ha; simp [stepLoop] at ha
  | cons step rest ih =>
    intro art a ha
    simp only [stepLoop, List.mem_cons] at ha
    rcases ha with h | h | h
    · subst h; rfl
    · subst h; rfl
    · have h3 := ih _ a h
      exact h3

theorem stepLoop_completed (api : ResearchStep → Except String GenResponse)
    (steps : List ResearchStep) : ∀ art : ArtifactState,
    (stepLoop api art steps).completed = steps.map fun step =>
      { step with status := .completed,
                  finding := some (executeResearchStepRun step (api step)).finding,
                  sources := some (executeResearchStepRun step (api step)).sources } := by
  induction steps with
  | nil => intro art; rfl
  | cons step rest ih => intro art; simp [stepLoop, ih]

theorem stepLoop_calls (api : ResearchStep → Except String GenResponse)
    (steps : List ResearchStep) : ∀ art : ArtifactState,
    (stepLoop api art steps).calls = steps := by
  induction steps with
  | nil => intro art; rfl
  | cons step rest ih => intro art; simp [stepLoop, ih]

theorem stepLoop_sources_nodup (api : ResearchStep → Except String GenResponse)
    (steps : List ResearchStep) : ∀ art : ArtifactState,
    (art.sources.map Source.uri).Nodup →
    (∀ step ∈ steps,
      (((executeResearchStepRun step (api step)).sources).map Source.uri).Nodup) →
    (((stepLoop api art steps).art.sources).map Source.uri).Nodup := by
  induction steps with
  | nil => intro art h _; exact h
  | cons step rest ih =>
    intro art hart hsteps
    simp only [stepLoop]
    apply ih
    · simp only [List.map_append, List.nodup_append]
      refine ⟨hart, ?_, ?_⟩
      · have hsub : (((executeResearchStepRun step (api step)).sources).filter
            (fun src => decide (src.uri ∉ art.sources.map Source.uri))).Sublist
            ((executeResearchStepRun step (api step)).sources) :=
          List.filter_sublist _
        exact (hsub.map Source.uri).nodup (hsteps step (by simp))
      · intro u hu hu'
        rcases List.mem_map.mp hu' with ⟨src, hsrc, rfl⟩
        have := (List.mem_filter.mp hsrc).2
        exact (of_decide_eq_true this) hu
    · intro st hst
      exact hsteps st (by simp [hst])

/-! ## Helper lemmas about the report stream -/

theorem generateFinalReportStream_content (topic : String)
    (completedSteps : List ResearchStep) (chunks : List String) :
    ∀ art : ArtifactState,
    (generateFinalReportStream topic completedSteps art chunks).1.content =
      art.content ++ concatChunks chunks := by
  induction chunks with
  | nil => intro art; simp [generateFinalReportStream, concatChunks]
  | cons c rest ih =>
    intro art
    by_cases hc : c = ""
    · subst hc
      simp [generateFinalReportStream, concatChunks, ih, String.empty_append]
    · simp [generateFinalReportStream, hc, concatChunks, ih, String.append_assoc]

theorem generateFinalReportStream_fields (topic : String)
    (completedSteps : List ResearchStep) (chunks : List String) :
    ∀ art : ArtifactState,
    (generateFinalReportStream topic completedSteps art chunks).1.phase = art.phase ∧
    (generateFinalReportStream topic completedSteps art chunks).1.sources = art.sources ∧
    (generateFinalReportStream topic completedSteps art chunks).1.title = art.title ∧
    (generateFinalReportStream topic completedSteps art chunks).1.currentStepId =
      art.currentStepId := by
  induction chunks with
  | nil => intro art; exact ⟨rfl, rfl, rfl, rfl⟩
  | cons c rest ih =>
    intro art
    by_cases hc : c = ""
    · subst hc; simpa [generateFinalReportStream] using ih art
    · simpa [generateFinalReportStream, hc] using ih _

theorem generateFinalReportStream_trace_phase (topic : String)
    (completedSteps : List ResearchStep) (chunks : List String) :
    ∀ art : ArtifactState,
    ∀ a ∈ (generateFinalReportStream topic completedSteps art chunks).2,
      a.phase = art.phase := by
  induction chunks with
  | nil => intro art a ha; simp [generateFinalReportStream] at ha
  | cons c rest ih =>
    intro art a ha
    by_cases hc : c = ""
    · subst hc
      simp only [generateFinalReportStream] at ha
      exact ih art a ha
    · simp only [generateFinalReportStream, if_neg hc] at ha
      rcases List.mem_cons.mp ha with h | h
      · subst h; rfl
      · have h3 := ih _ a h
        exact h3

/-! ## Helper lemmas about `dedupConsec` -/

theorem dedupConsec_cons_ne (a b : Phase) (t : List Phase) (h : a ≠ b) :
    dedupConsec (a :: b :: t) = a :: dedupConsec (b :: t) := by
  simp [dedupConsec, h]

theorem dedupConsec_all_cons (p : Phase) (l rest : List Phase)
    (h : ∀ x ∈ l, x = p) :
    dedupConsec (p :: (l ++ rest)) = dedupConsec (p :: rest) := by
  induction l with
  | nil => rfl
  | cons x l' ih =>
    have hx : x = p := h x (by simp)
    subst hx
    have : dedupConsec (x :: x :: (l' ++ rest)) = dedupConsec (x :: (l' ++ rest)) := by
      simp [dedupConsec]
    simpa [this] using ih fun y hy => h y (by simp [hy])

theorem dedupConsec_rrc (S : List Phase) (h : ∀ x ∈ S, x = .reporting) :
    dedupConsec (.researching :: .reporting :: (S ++ [.completed])) =
      [.researching, .reporting, .completed] := by
  rw [dedupConsec_cons_ne Phase.researching Phase.reporting
      (S ++ [Phase.completed]) (by decide)]
  rw [dedupConsec_all_cons Phase.reporting S [Phase.completed] h]
  rw [dedupConsec_cons_ne Phase.reporting Phase.completed [] (by decide)]
  rfl

/-! ## Concrete fixtures used by witnesses and counterexamples -/

def sampleStep : ResearchStep := ⟨"step-0", "q0", .pending, none, none⟩

def samplePlan : ResearchPlan := ⟨"topic", [sampleStep]⟩

def sampleState (p : Phase) : AppState :=
  ⟨"t", [], ⟨"Research Hub", "", p, [], none⟩, none⟩

/-! ## Claims -/

/-- C4: the per-step research operation never rejects: for every step
and every outcome of its internal generate call it resolves with `.ok`,
and when the internal work fails it resolves to the degraded result with
finding "Failed to fetch info for this step." and an empty source list,
so a single step failure never halts the execution loop. -/
theorem C4_executeResearchStep_never_rejects
    (step : ResearchStep) (api : Except String GenResponse) :
    (∃ r : StepResult, executeResearchStep step api = .ok r) ∧
    (∀ e : String, executeResearchStep step (.error e) =
      .ok ⟨"Failed to fetch info for this step.", []⟩) := by
  refine ⟨?_, fun e => rfl⟩
  cases api <;> exact ⟨_, rfl⟩

/-- C2: a topic submission made while the artifact phase is neither idle
nor completed is rejected by the core: the state (input, transcript,
artifact, current plan) is returned untouched, no artifact write
happens, the planner is not invoked, and no research step runs. -/
theorem C2_submission_rejected_outside_idle_completed
    (s : AppState) (e : KeyEvent) (now : Nat)
    (planner : Except String ResearchPlan)
    (h1 : s.artifact.phase ≠ .idle) (h2 : s.artifact.phase ≠ .completed) :
    handleKeyDown s e now planner = ⟨s, [], 0, []⟩ := by
  unfold handleKeyDown
  have hor : ¬(s.artifact.phase = .idle ∨ s.artifact.phase = .completed) := by
    rintro (h | h)
    · exact h1 h
    · exact h2 h
  by_cases hk : e.key = "Enter" ∧ ¬e.shiftKey
  · rw [if_pos hk, if_neg hor]
  · rw [if_neg hk]

theorem C2_witness :
    (sampleState .researching).artifact.phase ≠ .idle ∧
    (sampleState .researching).artifact.phase ≠ .completed ∧
    handleKeyDown (sampleState .researching) ⟨"Enter", false⟩ 0 (.ok samplePlan) =
      ⟨sampleState .researching, [], 0, []⟩ :=
  ⟨by decide, by decide,
    C2_submission_rejected_outside_idle_completed (sampleState .researching)
      ⟨"Enter", false⟩ 0 (.ok samplePlan) (by decide) (by decide)⟩

/-- C10: `handlePlanApproval` checks no phase precondition: replacing
the phase at call time by any phase (researching, reporting, completed
included) leaves its entire output unchanged; it appends the
confirmation transcript entry, its first artifact write sets the phase
to researching, and it starts the step-execution loop over every
approved step. -/
theorem C10_handlePlanApproval_ignores_phase
    (s : AppState) (p : Phase) (approvedPlan : ResearchPlan)
    (api : ResearchStep → Except String GenResponse)
    (chunks : List String) (now : Nat) :
    handlePlanApproval { s with artifact := { s.artifact with phase := p } }
        approvedPlan api chunks now =
      handlePlanApproval s approvedPlan api chunks now ∧
    (handlePlanApproval s approvedPlan api chunks now).trace.head? =
      some { s.artifact with phase := .researching } ∧
    (handlePlanApproval s approvedPlan api chunks now).state.messages =
      s.messages ++
        [⟨toString now, .model,
          "Plan approved. Deploying Researcher agent now. Check the sidebar for live progress.",
          now, false, none⟩,
         ⟨toString now, .model,
          "Research complete. Reporter agent is compiling the final artifact...",
          now, false, none⟩] ∧
    (handlePlanApproval s approvedPlan api chunks now).researchCalls =
      approvedPlan.steps := by
  refine ⟨rfl, rfl, by simp [handlePlanApproval], ?_⟩
  simp [handlePlanApproval, stepLoop_calls]

/-- C5: the completed-steps accumulator handed to the report streamer
has exactly one entry per approved step, in the order of the approved
plan (ids and queries agree pointwise), and every entry carries status
completed, regardless of which individual step results were degraded. -/
theorem C5_completed_steps_accumulator
    (s : AppState) (approvedPlan : ResearchPlan)
    (api : ResearchStep → Except String GenResponse)
    (chunks : List String) (now : Nat) :
    (handlePlanApproval s approvedPlan api chunks now).reportSteps.length =
      approvedPlan.steps.length ∧
    (handlePlanApproval s approvedPlan api chunks now).reportSteps.map
        ResearchStep.id = approvedPlan.steps.map ResearchStep.id ∧
    (handlePlanApproval s approvedPlan api chunks now).reportSteps.map
        ResearchStep.query = approvedPlan.steps.map ResearchStep.query ∧
    ∀ st ∈ (handlePlanApproval s approvedPlan api chunks now).reportSteps,
      st.status = .completed := by
  have hrep : (handlePlanApproval s approvedPlan api chunks now).reportSteps =
      approvedPlan.steps.map fun step =>
        { step with status := .completed,
                    finding := some (executeResearchStepRun step (api step)).finding,
                    sources := some (executeResearchStepRun step (api step)).sources } := by
    simp [handlePlanApproval, stepLoop_completed]
  refine ⟨?_, ?_, ?_, ?_⟩
  · simp [hrep]
  · simp [hrep, List.map_map]
  · simp [hrep, List.map_map]
  · intro st hst
    rw [hrep] at hst
    rcases List.mem_map.mp hst with ⟨st0, _, rfl⟩
    rfl

/-- C9: approving a plan with an empty step list still completes the
run: the researcher is invoked zero times, the completed-steps list
handed to the report streamer is empty, no source is added, the artifact
passes through researching and reporting to completed, and the report
chunks are still folded into the content. -/
theorem C9_empty_plan_still_completes
    (s : AppState) (topic : String)
    (api : ResearchStep → Except String GenResponse)
    (chunks : List String) (now : Nat) :
    (handlePlanApproval s ⟨topic, []⟩ api chunks now).researchCalls = [] ∧
    (handlePlanApproval s ⟨topic, []⟩ api chunks now).reportSteps = [] ∧
    (handlePlanApproval s ⟨topic, []⟩ api chunks now).state.artifact.sources =
      s.artifact.sources ∧
    (handlePlanApproval s ⟨topic, []⟩ api chunks now).state.artifact.phase =
      .completed ∧
    (handlePlanApproval s ⟨topic, []⟩ api chunks now).state.artifact.content =
      s.artifact.content ++ concatChunks chunks ∧
    dedupConsec
        (((handlePlanApproval s ⟨topic, []⟩ api chunks now).trace).map
          ArtifactState.phase) =
      [.researching, .reporting, .completed] := by
  have hfields := generateFinalReportStream_fields topic
    ((stepLoop api { s.artifact with phase := .researching } ([] : List ResearchStep)).completed)
    chunks
  have hcontent := generateFinalReportStream_content topic
    ((stepLoop api { s.artifact with phase := .researching } ([] : List ResearchStep)).completed)
    chunks
  have htr := generateFinalReportStream_trace_phase topic
    ((stepLoop api { s.artifact with phase := .researching } ([] : List ResearchStep)).completed)
    chunks
  refine ⟨rfl, rfl, ?_, rfl, ?_, ?_⟩
  · simpa [handlePlanApproval, stepLoop] using (hfields _).2.1
  · simpa [handlePlanApproval, stepLoop] using hcontent _
  · have hall : ∀ x ∈ (generateFinalReportStream topic
        (stepLoop api { s.artifact with phase := .researching } []).completed
        { (stepLoop api { s.artifact with phase := .researching } []).art with
            phase := .reporting, currentStepId := none } chunks).2.map
          ArtifactState.phase, x = Phase.reporting := by
      intro x hx
      rcases List.mem_map.mp hx with ⟨a, ha, rfl⟩
      exact htr _ a ha
    refine Eq.trans ?_ (dedupConsec_rrc _ hall)
    congr 1
    simp [handlePlanApproval, stepLoop]

/-- C7: if the planner call rejects, the orchestrator recovers: the
failure message is appended to the transcript (after the user message
and the thinking placeholder), the artifact phase resets to idle, no
research step executes, and the planner was invoked exactly once (no
automatic retry). -/
theorem C7_planning_failure_recovery
    (s : AppState) (now : Nat) (err : String)
    (h : jsTrim s.input ≠ "") :
    (handleInitialRequest s now (.error err)).state.artifact.phase = .idle ∧
    (handleInitialRequest s now (.error err)).state.messages =
      s.messages ++
        [⟨toString now, .user, s.input, now, false, none⟩,
         ⟨toString (now + 1), .model,
          "Coordinator: Activating Planner agent for \"" ++ s.input ++ "\"...",
          now, true, none⟩,
         ⟨toString now, .model,
          "Planner failed to generate a plan. Please try again.", now, false, none⟩] ∧
    (handleInitialRequest s now (.error err)).researchCalls = [] ∧
    (handleInitialRequest s now (.error err)).plannerCalls = 1 := by
  refine ⟨?_, ?_, ?_, ?_⟩ <;> simp [handleInitialRequest, h]

theorem C7_witness :
    jsTrim (sampleState .idle).input ≠ "" ∧
    (handleInitialRequest (sampleState .idle) 0 (.error "e")).state.artifact.phase =
      .idle ∧
    (handleInitialRequest (sampleState .idle) 0 (.error "e")).plannerCalls = 1 :=
  ⟨by decide,
    (C7_planning_failure_recovery (sampleState .idle) 0 "e" (by decide)).1,
    (C7_planning_failure_recovery (sampleState .idle) 0 "e" (by decide)).2.2.2⟩

/-- The final content of a plan-approval run is the content at entry
followed by the ordered concatenation of the delivered chunks. -/
theorem handlePlanApproval_content (s : AppState) (p : ResearchPlan)
    (api : ResearchStep → Except String GenResponse)
    (chunks : List String) (now : Nat) :
    (handlePlanApproval s p api chunks now).state.artifact.content =
      s.artifact.content ++ concatChunks chunks := by
  have h1 := (stepLoop_art_fields api p.steps
    { s.artifact with phase := .researching }).2.1
  simp only [handlePlanApproval]
  rw [generateFinalReportStream_content]
  simp [h1]

/-- C6: report chunks are folded into the artifact content in arrival
order: after a submission (which resets the content to the empty
string), the content at reporting entry is that empty string, the final
content equals the ordered concatenation of the N delivered chunks
(empty-string chunks contribute nothing), a zero-chunk stream leaves the
content unchanged, and the phase still reaches completed. -/
theorem C6_content_is_chunk_concatenation
    (s : AppState) (now now2 : Nat) (plan approvedPlan : ResearchPlan)
    (api : ResearchStep → Except String GenResponse) (chunks : List String)
    (h : jsTrim s.input ≠ "") :
    (handleInitialRequest s now (.ok plan)).state.artifact.content = "" ∧
    (handlePlanApproval (handleInitialRequest s now (.ok plan)).state
        approvedPlan api chunks now2).state.artifact.content =
      concatChunks chunks ∧
    (handlePlanApproval (handleInitialRequest s now (.ok plan)).state
        approvedPlan api [] now2).state.artifact.content = "" ∧
    (handlePlanApproval (handleInitialRequest s now (.ok plan)).state
        approvedPlan api chunks now2).state.artifact.phase = .completed := by
  have hmid : (handleInitialRequest s now (.ok plan)).state.artifact.content = "" := by
    simp [handleInitialRequest, h]
  refine ⟨hmid, ?_, ?_, rfl⟩
  · rw [handlePlanApproval_content, hmid, String.empty_append]
  · rw [handlePlanApproval_content, hmid, String.empty_append]
    rfl

theorem C6_witness :
    jsTrim (sampleState .idle).input ≠ "" ∧
    (handlePlanApproval (handleInitialRequest (sampleState .idle) 0
        (.ok samplePlan)).state samplePlan (fun _ => .error "e") ["a", "", "b"]
        1).state.artifact.content = concatChunks ["a", "", "b"] :=
  ⟨by decide,
    (C6_content_is_chunk_concatenation (sampleState .idle) 0 1 samplePlan
      samplePlan (fun _ => .error "e") ["a", "", "b"] (by decide)).2.1⟩

def dupWeb : WebSource := ⟨some "u", some "T"⟩

def dupChunk : GroundingChunk := ⟨some dupWeb⟩

/-- A generate response whose grounding metadata repeats one web source,
so the extracted source list repeats one uri. -/
def dupResponse : GenResponse :=
  ⟨some "finding", some [⟨some ⟨some [dupChunk, dupChunk]⟩⟩]⟩

/-- C3 counterexample: a single step result that repeats one uri inside
its own source list passes the Set-based cross-step filter twice — the
set only holds uris accumulated before this step — so the artifact ends
with two source entries of equal uri. -/
theorem C3_counterexample :
    (handlePlanApproval (sampleState .reviewing) samplePlan
        (fun _ => .ok dupResponse) [] 0).state.artifact.sources =
      [⟨"T", "u"⟩, ⟨"T", "u"⟩] ∧
    ¬ (((handlePlanApproval (sampleState .reviewing) samplePlan
        (fun _ => .ok dupResponse) [] 0).state.artifact.sources).map
        Source.uri).Nodup := by
  constructor <;> decide

/-- C3 corrected: across steps the invariant holds — the Set-based
filter drops every source whose uri was already accumulated — provided
each individual step result carries no duplicate uri within its own
list; a duplicate inside one result is admitted twice (see the
counterexample). -/
theorem C3_amended_sources_nodup
    (s : AppState) (approvedPlan : ResearchPlan)
    (api : ResearchStep → Except String GenResponse)
    (chunks : List String) (now : Nat)
    (h0 : (s.artifact.sources.map Source.uri).Nodup)
    (hsteps : ∀ step ∈ approvedPlan.steps,
      (((executeResearchStepRun step (api step)).sources).map Source.uri).Nodup) :
    (((handlePlanApproval s approvedPlan api chunks now).state.artifact.sources).map
      Source.uri).Nodup := by
  have hloop := stepLoop_sources_nodup api approvedPlan.steps
    { s.artifact with phase := .researching } h0 hsteps
  have hfields := (generateFinalReportStream_fields approvedPlan.topic
    (stepLoop api { s.artifact with phase := .researching } approvedPlan.steps).completed
    chunks
    { (stepLoop api { s.artifact with phase := .researching } approvedPlan.steps).art
        with phase := .reporting, currentStepId := none }).2.1
  simp only [handlePlanApproval]
  rw [hfields]
  exact hloop

theorem C3_witness :
    ((sampleState .reviewing).artifact.sources.map Source.uri).Nodup ∧
    (∀ step ∈ samplePlan.steps,
      (((executeResearchStepRun step
          ((fun _ => Except.error "e" : ResearchStep → Except String GenResponse)
            step)).sources).map Source.uri).Nodup) ∧
    (((handlePlanApproval (sampleState .reviewing) samplePlan
        (fun _ => Except.error "e") ["c"] 0).state.artifact.sources).map
      Source.uri).Nodup :=
  ⟨by decide, fun st _ => by simp [executeResearchStepRun],
    C3_amended_sources_nodup (sampleState .reviewing) samplePlan
      (fun _ => Except.error "e") ["c"] 0 (by decide)
      (fun st _ => by simp [executeResearchStepRun])⟩

/-- A plan step as created by an earlier `handleAdd` when the clock read
5 milliseconds. -/
def removedStep : ResearchStep := ⟨"new-5", "q", .pending, none, none⟩

/-- C8 counterexample: the generated id is `new-` followed by the clock
reading, with no check against previously used ids. Removing the step
with id new-5 and adding a step with the same query while the clock
still reads 5 recreates exactly the removed id. -/
theorem C8_counterexample :
    (handleRemove ⟨[removedStep], "q"⟩ "new-5").steps = [] ∧
    (handleAdd (handleRemove ⟨[removedStep], "q"⟩ "new-5") 5).steps =
      [⟨"new-5", "q", .pending, none, none⟩] := by
  constructor <;> decide

/-- C8 corrected: the step added after a removal carries id `new-t`
where t is the clock reading at the add; whenever that id is not already
among the ids in the working copy — in particular whenever the clock
reading differs from the reading at which any earlier step was added,
and always against planner-generated ids of the form `step-i` — the
added id differs from every id previously used, the removed one
included. -/
theorem C8_amended_fresh_id
    (st : PlanEditorState) (id : String) (now : Nat)
    (htext : jsTrim st.newStepText ≠ "")
    (hfresh : ("new-" ++ toString now) ∉ st.steps.map ResearchStep.id) :
    (handleAdd (handleRemove st id) now).steps =
      (st.steps.filter fun s => decide (s.id ≠ id)) ++
        [⟨"new-" ++ toString now, st.newStepText, .pending, none, none⟩] ∧
    ∀ sid ∈ st.steps.map ResearchStep.id, "new-" ++ toString now ≠ sid := by
  constructor
  · simp [handleAdd, handleRemove, htext]
  · intro sid hsid heq
    exact hfresh (heq ▸ hsid)

theorem C8_witness :
    jsTrim (⟨[⟨"step-0", "a", .pending, none, none⟩], "q"⟩ :
        PlanEditorState).newStepText ≠ "" ∧
    ("new-" ++ toString 7) ∉
      ((⟨[⟨"step-0", "a", .pending, none, none⟩], "q"⟩ :
        PlanEditorState).steps.map ResearchStep.id) ∧
    (handleAdd (handleRemove
        ⟨[⟨"step-0", "a", .pending, none, none⟩], "q"⟩ "step-0") 7).steps =
      ((⟨[⟨"step-0", "a", .pending, none, none⟩], "q"⟩ :
          PlanEditorState).steps.filter fun s => decide (s.id ≠ "step-0")) ++
        [⟨"new-" ++ toString 7, "q", .pending, none, none⟩] :=
  ⟨by decide, by decide,
    (C8_amended_fresh_id ⟨[⟨"step-0", "a", .pending, none, none⟩], "q"⟩
      "step-0" 7 (by decide) (by decide)).1⟩

theorem dedupConsec_full_run (L S : List Phase)
    (hL : ∀ x ∈ L, x = .researching) (hS : ∀ x ∈ S, x = .reporting) :
    dedupConsec (.planning :: .reviewing :: .researching ::
        (L ++ (.reporting :: (S ++ [.completed])))) =
      [.planning, .reviewing, .researching, .reporting, .completed] := by
  rw [dedupConsec_cons_ne Phase.planning Phase.reviewing _ (by decide)]
  rw [dedupConsec_cons_ne Phase.reviewing Phase.researching _ (by decide)]
  rw [dedupConsec_all_cons Phase.researching L
    (Phase.reporting :: (S ++ [Phase.completed])) hL]
  rw [dedupConsec_cons_ne Phase.researching Phase.reporting _ (by decide)]
  rw [dedupConsec_all_cons Phase.reporting S [Phase.completed] hS]
  rw [dedupConsec_cons_ne Phase.reporting Phase.completed [] (by decide)]
  rfl

/-- C1: for a non-empty topic submitted while the phase is idle or
completed, with the planner resolving to a plan, the sequence of
distinct phases the artifact passes through across the submission and
the approval run is exactly planning, reviewing, researching, reporting,
completed, in that order, with no phase skipped or repeated — for any
approved (possibly edited) plan, any researcher outcomes, and any chunk
stream. -/
theorem C1_phase_sequence
    (s : AppState) (now now2 : Nat) (plan approvedPlan : ResearchPlan)
    (api : ResearchStep → Except String GenResponse) (chunks : List String)
    (hphase : s.artifact.phase = .idle ∨ s.artifact.phase = .completed)
    (hinput : jsTrim s.input ≠ "") :
    dedupConsec
      (((handleKeyDown s ⟨"Enter", false⟩ now (.ok plan)).trace ++
        (handlePlanApproval
          (handleKeyDown s ⟨"Enter", false⟩ now (.ok plan)).state
          approvedPlan api chunks now2).trace).map ArtifactState.phase) =
      [.planning, .reviewing, .researching, .reporting, .completed] := by
  have hkd : handleKeyDown s ⟨"Enter", false⟩ now (.ok plan) =
      handleInitialRequest s now (.ok plan) := by
    unfold handleKeyDown
    rw [if_pos ⟨rfl, by simp⟩, if_pos hphase]
  have htrace : (handleInitialRequest s now (Except.ok plan)).trace =
      [⟨s.input, "", .planning, [], none⟩, ⟨s.input, "", .reviewing, [], none⟩] := by
    simp [handleInitialRequest, hinput]
  have hart : (handleInitialRequest s now (Except.ok plan)).state.artifact =
      ⟨s.input, "", .reviewing, [], none⟩ := by
    simp [handleInitialRequest, hinput]
  have hL : ∀ x ∈ (stepLoop api ⟨s.input, "", .researching, [], none⟩
      approvedPlan.steps).trace.map ArtifactState.phase, x = Phase.researching := by
    intro x hx
    rcases List.mem_map.mp hx with ⟨a, ha, rfl⟩
    exact stepLoop_trace_phase api approvedPlan.steps _ a ha
  have hS : ∀ x ∈ (generateFinalReportStream approvedPlan.topic
      (stepLoop api ⟨s.input, "", .researching, [], none⟩ approvedPlan.steps).completed
      { (stepLoop api ⟨s.input, "", .researching, [], none⟩ approvedPlan.steps).art
          with phase := .reporting, currentStepId := none }
      chunks).2.map ArtifactState.phase, x = Phase.reporting := by
    intro x hx
    rcases List.mem_map.mp hx with ⟨a, ha, rfl⟩
    exact generateFinalReportStream_trace_phase _ _ _ _ a ha
  rw [hkd]
  refine Eq.trans ?_ (dedupConsec_full_run _ _ hL hS)
  congr 1
  rw [htrace]
  simp [handlePlanApproval, hart]

theorem C1_witness :
    ((sampleState .idle).artifact.phase = .idle ∨
      (sampleState .idle).artifact.phase = .completed) ∧
    jsTrim (sampleState .idle).input ≠ "" ∧
    dedupConsec
      (((handleKeyDown (sampleState .idle) ⟨"Enter", false⟩ 0
          (.ok samplePlan)).trace ++
        (handlePlanApproval
          (handleKeyDown (sampleState .idle) ⟨"Enter", false⟩ 0
            (.ok samplePlan)).state
          samplePlan (fun _ => Except.error "e") ["c"] 1).trace).map
        ArtifactState.phase) =
      [.planning, .reviewing, .researching, .reporting, .completed] :=
  ⟨Or.inl rfl, by decide,
    C1_phase_sequence (sampleState .idle) 0 1 samplePlan samplePlan
      (fun _ => Except.error "e") ["c"] (Or.inl rfl) (by decide)⟩

end DeepDive
